import Mathlib

/-!
Verification of the AI travel-planner demo (RAG/CAG agent).

Shallow embedding of `TRAVEL_ASI_DEMO_GPT_中文注释版.py` and the demo shell
`使用示例.py`.  Python dictionaries are modelled as insertion-ordered
association lists, the faiss `IndexFlatL2` as a list of vectors searched by
exact squared-L2 distance, embedding vectors as `List Int` (exact arithmetic
in place of floats; only distance comparisons matter here), and the external
embedding provider as an explicit function parameter `embed : String → Vec`.
Fallible Python code (index errors, `strptime` failures) returns `Option`.
Network calls to the embedding endpoint are counted explicitly.
-/

/-- A value stored in a knowledge record: either a plain string or a list of
strings (e.g. the `tips` / `activities` arrays in the NYC knowledge base). -/
inductive Val where
  | str (s : String)
  | list (l : List String)
deriving DecidableEq, Repr

/-- A knowledge record body: an insertion-ordered mapping from attribute name
to value (Python `dict`). -/
abbrev Record := List (String × Val)

/-- A knowledge base: categories, each mapping titles to record bodies
(two-level Python dict, iterated in insertion order). -/
abbrev KnowledgeBase := List (String × List (String × Record))

/-- An embedding vector (floats modelled with exact integers). -/
abbrev Vec := List Int

/-- First-match lookup in an insertion-ordered association list
(Python `d[k]` / `k in d`). -/
def dictFind {α : Type} (d : List (String × α)) (k : String) : Option α :=
  match d with
  | [] => none
  | (k', v) :: rest => if k' = k then some v else dictFind rest k

/-- Python list indexing `l[i]`: non-negative indices from the front,
negative indices from the back (`l[-1]` is the last element); out of range
raises, modelled as `none`. -/
def pyGet {α : Type} (l : List α) (i : Int) : Option α :=
  if 0 ≤ i then l.get? i.toNat
  else if (-i).toNat ≤ l.length then l.get? (l.length - (-i).toNat)
  else none

/-- ASCII whitespace as recognised by Python's `str.strip()` and `\s`
(restricted to the ASCII range, which is all the program ever meets). -/
def isPySpace (c : Char) : Bool :=
  c = ' ' || c = '\t' || c = '\n' || c = '\r' || c = '\x0b' || c = '\x0c'

/-- Python `str.strip()`: drop leading and trailing whitespace. -/
def pyStrip (s : String) : String :=
  String.mk (((s.data.dropWhile isPySpace).reverse.dropWhile isPySpace).reverse)

/-- `text.replace("\n", " ")` performed by `get_embedding` before the
provider call. -/
def normalizeText (s : String) : String :=
  String.mk (s.data.map (fun c => if c = '\n' then ' ' else c))

/-- `get_embedding(text, model)`: normalise newlines, then one call to the
external embedding endpoint (the endpoint itself is the parameter `embed`).
Every evaluation of this function corresponds to exactly one network call;
callers count those calls explicitly. -/
def get_embedding (embed : String → Vec) (text : String) : Vec :=
  embed (normalizeText text)

/-- The `Agent` class state: faiss index contents, the two parallel lists
`knowledge_embeddings` / `knowledge_data`, and the embedding cache. -/
structure Agent where
  name : String
  cache_size : Nat
  embedding_dim : Nat
  index : List Vec
  knowledge_embeddings : List Vec
  knowledge_data : List Record
  embedding_cache : List (String × Vec)
deriving DecidableEq, Repr

/-- `Agent.__init__(name, cache_size, embedding_dim)` : empty index, empty
parallel lists, empty cache. -/
def mkAgent (name : String) (cache_size : Nat) (embedding_dim : Nat) : Agent :=
  { name := name
    cache_size := cache_size
    embedding_dim := embedding_dim
    index := []
    knowledge_embeddings := []
    knowledge_data := []
    embedding_cache := [] }

/-- One iteration of the inner loop of `load_knowledge`: check the cache for
the title `key`, embed on a miss (one network call, cached afterwards), then
append the embedding and the record body to the parallel lists.  The second
component of the state counts embedding-endpoint calls. -/
def loadStep (embed : String → Vec) (acc : Agent × Nat) (entry : String × Record) :
    Agent × Nat :=
  let (a, n) := acc
  match dictFind a.embedding_cache entry.1 with
  | some e =>
      ({ a with
          knowledge_embeddings := a.knowledge_embeddings ++ [e]
          knowledge_data := a.knowledge_data ++ [entry.2] }, n)
  | none =>
      let e := get_embedding embed entry.1
      ({ a with
          embedding_cache := a.embedding_cache ++ [(entry.1, e)]
          knowledge_embeddings := a.knowledge_embeddings ++ [e]
          knowledge_data := a.knowledge_data ++ [entry.2] }, n + 1)

/-- The body of `load_knowledge` before the final `index.add`: the nested
loop over categories and titled records. -/
def loadEntries (embed : String → Vec) (acc : Agent × Nat)
    (es : List (String × Record)) : Agent × Nat :=
  es.foldl (loadStep embed) acc

/-- `Agent.load_knowledge(knowledge_data)`: iterate every category and every
titled record, embedding titles with cache lookup; afterwards bulk-add the
ENTIRE accumulated `knowledge_embeddings` list to the faiss index
(`self.index.add(np.array(self.knowledge_embeddings))`).  Returns the new
agent state and the number of embedding-endpoint calls made. -/
def load_knowledge (a : Agent) (kb : KnowledgeBase) (embed : String → Vec) :
    Agent × Nat :=
  let (a', n) := kb.foldl (fun acc cat => loadEntries embed acc cat.2) (a, 0)
  ({ a' with index := a'.index ++ a'.knowledge_embeddings }, n)

/-- The titled records of a knowledge base, flattened in iteration order. -/
def kbEntries (kb : KnowledgeBase) : List (String × Record) :=
  (kb.map Prod.snd).flatten

/-- The titles of a knowledge base in iteration order. -/
def kbTitles (kb : KnowledgeBase) : List String :=
  (kbEntries kb).map Prod.fst

/-- Squared Euclidean (L2) distance between two vectors, as computed by
faiss `IndexFlatL2` (faiss reports squared distances; ordering is the same
as for true L2 distance). -/
def l2sq (u v : Vec) : Int :=
  ((u.zip v).map (fun p => (p.1 - p.2) * (p.1 - p.2))).sum

/-- The (squared distance, position) pairs of an index's vectors against a
query, sorted by non-decreasing distance — the order in which faiss
`IndexFlatL2.search` reports neighbours. -/
def searchPairs (index : List Vec) (q : Vec) : List (Int × Nat) :=
  List.insertionSort (fun a b => a.1 ≤ b.1)
    (index.enum.map (fun p => (l2sq q p.2, p.1)))

/-- The label (index-position) array `I[0]` returned by
`IndexFlatL2.search(q, k)`: the positions of the `min k n` nearest vectors in
non-decreasing distance order, padded with `-1` when `k` exceeds the number
of stored vectors (faiss reports `-1` for missing neighbours). -/
def faissSearchLabels (index : List Vec) (q : Vec) (k : Nat) : List Int :=
  ((searchPairs index q).take k).map (fun p => (p.2 : Int))
    ++ List.replicate (k - min k index.length) (-1)

/-- The embedding used for a query by `retrieve_knowledge`: the cached
vector when present, otherwise a fresh call to the embedding endpoint. -/
def queryEmbedding (a : Agent) (q : String) (embed : String → Vec) : Vec :=
  match dictFind a.embedding_cache q with
  | some e => e
  | none => get_embedding embed q

/-- The retrieval loop `for i in I[0]: relevant_info.append(knowledge_data[i])`:
collect `knowledge_data[i]` for every label, in order; the first failing
(index-error) lookup aborts the whole call. -/
def pyGetAll (l : List Record) (idxs : List Int) : Option (List Record) :=
  match idxs with
  | [] => some []
  | i :: rest =>
      match pyGet l i with
      | none => none
      | some r => (pyGetAll l rest).map (fun ys => r :: ys)

/-- `Agent.retrieve_knowledge(query)`: embed the query (cache-checked),
search the faiss index with `k = 5`, then look up `self.knowledge_data[i]`
for every returned label `i` (Python indexing: the `-1` padding labels
resolve to the LAST record; an out-of-range access raises, modelled as
`none`).  Returns ((agent with possibly grown cache, embedding calls made),
retrieved records or failure). -/
def retrieve_knowledge (a : Agent) (q : String) (embed : String → Vec) :
    (Agent × Nat) × Option (List Record) :=
  let (cache', calls) :=
    match dictFind a.embedding_cache q with
    | some _ => (a.embedding_cache, 0)
    | none => (a.embedding_cache ++ [(q, get_embedding embed q)], 1)
  let qe := queryEmbedding a q embed
  let labels := faissSearchLabels a.index qe 5
  (({ a with embedding_cache := cache' }, calls),
    pyGetAll a.knowledge_data labels)

/-- Python `f"{v}"` formatting of a record value: strings verbatim, lists via
their `repr` (`['a', 'b']`). -/
def valFmt (v : Val) : String :=
  match v with
  | .str s => s
  | .list l =>
      "[" ++ String.intercalate ", " (l.map (fun x => "\x27" ++ x ++ "\x27")) ++ "]"

/-- Python `"\n".join(v)`: joins a list of strings; iterating a plain string
joins its individual characters. -/
def joinNewline (v : Val) : String :=
  match v with
  | .str s => String.intercalate "\n" (s.data.map (fun c => String.mk [c]))
  | .list l => String.intercalate "\n" l

/-- The text block `summarize_knowledge` appends for one record:
`list(item.keys())[0]` is the header name (raises on an empty dict, hence
`Option`), then the Description line (defaulting to `N/A`), then optional
Address / Website / Tips lines, then a blank line. -/
def itemEntry (item : Record) : Option String :=
  match item.head? with
  | none => none
  | some (name, _) =>
      some ("**" ++ name ++ "**\n"
        ++ ("Description: "
          ++ valFmt ((dictFind item "description").getD (.str "N/A")) ++ "\n"
          ++ (match dictFind item "address" with
              | some v => "Address: " ++ valFmt v ++ "\n"
              | none => "")
          ++ (match dictFind item "website" with
              | some v => "Website: " ++ valFmt v ++ "\n"
              | none => "")
          ++ (match dictFind item "tips" with
              | some v => "Tips:\n" ++ joinNewline v ++ "\n"
              | none => "")
          ++ "\n"))

/-- `Agent.summarize_knowledge(knowledge_list)`: empty list yields the empty
string; otherwise the concatenation of the per-record blocks (an empty dict
in the list raises, modelled as `none`). -/
def summarize_knowledge (knowledge_list : List Record) : Option String :=
  if knowledge_list = [] then some ""
  else (knowledge_list.mapM itemEntry).map (fun l => String.join l)

/-- Length of the literal pattern `pat` when it is a prefix of `cs`. -/
def litLen (pat : List Char) (cs : List Char) : Option Nat :=
  if pat.isPrefixOf cs then some pat.length else none

/-- Length of a match of the regex `Day\s+\d+:` at the head of `cs`
(`\s`, `\d` restricted to ASCII, which covers every label the program
produces): literal `Day`, one or more whitespace characters, one or more
digits, then a colon.  The character classes are disjoint, so greedy
matching is the unique match. -/
def dayMatchLen (cs : List Char) : Option Nat :=
  match cs with
  | 'D' :: 'a' :: 'y' :: rest =>
      let ws := rest.takeWhile isPySpace
      if ws.length = 0 then none
      else
        let rest2 := rest.drop ws.length
        let ds := rest2.takeWhile Char.isDigit
        if ds.length = 0 then none
        else
          match rest2.drop ds.length with
          | ':' :: _ => some (3 + ws.length + ds.length + 1)
          | _ => none
  | _ => none

/-- Length of a match of `Transportation:|Accommodation:|Day\s+\d+:` at the
head of `cs` (alternatives tried left to right, as `re` does). -/
def tryMatchAt (cs : List Char) : Option Nat :=
  match litLen "Transportation:".data cs with
  | some n => some n
  | none =>
      match litLen "Accommodation:".data cs with
      | some n => some n
      | none => dayMatchLen cs

/-- Left-to-right scan implementing
`re.split(r"(Transportation:|Accommodation:|Day\s+\d+:)", text)`:
at each position try the (captured) pattern; on a match emit the pending
text and the matched label, else advance one character.  `fuel` bounds the
recursion; every step consumes at least one character, so `fuel =
cs.length` never runs out. -/
def splitAux : Nat → List Char → List Char → List String
  | 0, cs, acc => [String.mk (acc.reverse ++ cs)]
  | fuel + 1, cs, acc =>
      match tryMatchAt cs with
      | some n =>
          String.mk acc.reverse :: String.mk (cs.take n)
            :: splitAux fuel (cs.drop n) []
      | none =>
          match cs with
          | [] => [String.mk acc.reverse]
          | c :: rest => splitAux fuel rest (c :: acc)

/-- `re.split(r"(Transportation:|Accommodation:|Day\s+\d+:)", itinerary_text)`:
the fragments between matches interleaved with the captured labels. -/
def reSplitItinerary (s : String) : List String :=
  splitAux s.data.length s.data []

/-- Python dict assignment `d[k] = v`: update in place when the key exists
(keeping its position), else append. -/
def dictSet {α : Type} (d : List (String × α)) (k : String) (v : α) :
    List (String × α) :=
  match d with
  | [] => [(k, v)]
  | (k', v') :: rest =>
      if k' = k then (k, v) :: rest else (k', v') :: dictSet rest k v

/-- `itinerary[current_section].append(section)`: append to the list stored
under `k`.  (A missing key would raise `KeyError` in Python; the parse loop
only appends under a key it has just created, so the `[]` case is
unreachable and modelled as a no-op.) -/
def dictAppendVal (d : List (String × List String)) (k : String) (x : String) :
    List (String × List String) :=
  match d with
  | [] => []
  | (k', v) :: rest =>
      if k' = k then (k', v ++ [x]) :: rest
      else (k', v) :: dictAppendVal rest k x

/-- The section-accumulation loop of `present_itinerary`: strip each piece,
skip empties, open a new (emptied) section on the literal labels
`Transportation:` / `Accommodation:` or on a `Day\s+\d+:` prefix match
(`re.match`), and append any other piece to the current section; pieces seen
before the first label are dropped. -/
def parseLoop :
    List String → Option String → List (String × List String) →
      List (String × List String)
  | [], _, it => it
  | sec :: rest, cur, it =>
      let s := pyStrip sec
      if s = "" then parseLoop rest cur it
      else if s = "Transportation:" ∨ s = "Accommodation:" then
        parseLoop rest (some s) (dictSet it s [])
      else if (dayMatchLen s.data).isSome then
        parseLoop rest (some s) (dictSet it s [])
      else
        match cur with
        | some c => parseLoop rest cur (dictAppendVal it c s)
        | none => parseLoop rest cur it

/-- The parse of `present_itinerary`: split the generated text on the three
label patterns and run the accumulation loop. -/
def parseItinerary (text : String) : List (String × List String) :=
  parseLoop (reSplitItinerary text) none []

/-- Gregorian leap year (as used by Python `datetime`). -/
def isLeapYear (y : Int) : Bool :=
  (y % 4 = 0 && y % 100 ≠ 0) || y % 400 = 0

/-- Days in a month of a Gregorian year. -/
def daysInMonth (y m : Int) : Int :=
  if m = 2 then (if isLeapYear y then 29 else 28)
  else if m = 4 ∨ m = 6 ∨ m = 9 ∨ m = 11 then 30
  else 31

/-- Digits-only string to a number. -/
def digitsToNat (s : String) : Nat :=
  s.data.foldl (fun n c => n * 10 + (c.toNat - '0'.toNat)) 0

/-- Split a character list on the dash separator. -/
def splitDash (cs : List Char) : List (List Char) :=
  match cs with
  | [] => [[]]
  | c :: rest =>
      if c = '-' then [] :: splitDash rest
      else
        match splitDash rest with
        | g :: gs => (c :: g) :: gs
        | [] => [[c]]

/-- `datetime.datetime.strptime(s, "%Y-%m-%d")`: three dash-separated digit
groups, validated (year 1–9999, month 1–12, day within the month); any
violation raises `ValueError`, modelled as `none`. -/
def parseDate (s : String) : Option (Int × Int × Int) :=
  match (splitDash s.data).map String.mk with
  | [ys, ms, ds] =>
      if ys ≠ "" && ys.data.all Char.isDigit
          && ms ≠ "" && ms.data.all Char.isDigit
          && ds ≠ "" && ds.data.all Char.isDigit then
        let y : Int := digitsToNat ys
        let m : Int := digitsToNat ms
        let d : Int := digitsToNat ds
        if 1 ≤ y && y ≤ 9999 && 1 ≤ m && m ≤ 12 && 1 ≤ d
            && d ≤ daysInMonth y m then
          some (y, m, d)
        else none
      else none
  | _ => none

/-- Day number of a Gregorian date (days since 1970-01-01, Howard Hinnant's
`days_from_civil`; all intermediate divisions act on non-negative values, so
truncating division agrees with the original). -/
def daysFromCivil (y m d : Int) : Int :=
  let y' := if m ≤ 2 then y - 1 else y
  let era := (if 0 ≤ y' then y' else y' - 399) / 400
  let yoe := y' - era * 400
  let mp := (m + 9) % 12
  let doy := (153 * mp + 2) / 5 + d - 1
  let doe := yoe * 365 + yoe / 4 - yoe / 100 + doy
  era * 146097 + doe - 719468

/-- The trip-length computation of `present_itinerary`:
`(strptime(dates[1]) - strptime(dates[0])).days`. -/
def tripNumDays (d0 d1 : String) : Option Int := do
  let (y0, m0, dd0) ← parseDate d0
  let (y1, m1, dd1) ← parseDate d1
  pure (daysFromCivil y1 m1 dd1 - daysFromCivil y0 m0 dd0)

/-- `"x" * n` (Python string repetition of a single character). -/
def repChar (c : Char) (n : Nat) : String :=
  String.mk (List.replicate n c)

/-- `Agent.present_itinerary(itinerary_text, budget, travel_dates)`: parse
the text into labeled sections, compute the trip length from the two travel
dates (the computed `num_days` is never displayed by the source), then print
the header and every section with its items.  The returned list is the
sequence of `print` arguments; `none` models an uncaught exception (missing
date in `travel_dates` or a `strptime` failure).  The method never writes
any agent field, so the agent is returned unchanged.  The `budget` argument
is accepted but never read. -/
def present_itinerary (a : Agent) (itinerary_text : String) (budget : String)
    (travel_dates : List String) : Option (List String) × Agent :=
  let itinerary := parseItinerary itinerary_text
  match travel_dates.get? 0, travel_dates.get? 1 with
  | some s0, some s1 =>
      match tripNumDays s0 s1 with
      | some _ =>
          (some (["\n" ++ repChar '=' 50, "📋 您的详细旅行计划", repChar '=' 50]
            ++ itinerary.flatMap (fun sec =>
                 ["\n" ++ sec.1, repChar '-' 30] ++ sec.2 ++ [repChar '-' 20])), a)
      | none => (none, a)
  | _, _ => (none, a)

/-- The sequence of `retrieve_knowledge` calls made by `plan_nyc_trip`
(first for the preference text, then one per interest, results
concatenated); the agent state and call count thread through, and a raising
call aborts the rest (its own cache update kept, as in Python). -/
def retrieveMany (a : Agent) (qs : List String) (embed : String → Vec) :
    (Agent × Nat) × Option (List Record) :=
  match qs with
  | [] => ((a, 0), some [])
  | q :: rest =>
      let ((a1, n1), r1) := retrieve_knowledge a q embed
      match r1 with
      | none => ((a1, n1), none)
      | some l =>
          let ((a2, n2), r2) := retrieveMany a1 rest embed
          ((a2, n1 + n2), r2.map (fun l2 => l ++ l2))

/-- `Agent.plan_nyc_trip(travel_dates, budget, preferences, interests)`:
after reading the transport / accommodation preferences (parameters here),
retrieve knowledge for the preference text and every interest, render the
digest via `summarize_knowledge` into the prompt, issue one
generation-endpoint call (its response is the parameter `llmResponse`; the
prompt strings are pure string assembly with no effect on agent state), and
hand the response to `present_itinerary`.  Progress prints and the prompt
text are omitted; the returned output is that of `present_itinerary`, and
the `Nat` counts embedding-endpoint calls. -/
def plan_nyc_trip (a : Agent) (travel_dates : List String) (budget : String)
    (preferences : String) (interests : List String)
    (transport_mode accommodation_type llmResponse : String)
    (embed : String → Vec) : (Agent × Nat) × Option (List String) :=
  let ((a1, n1), rel) := retrieveMany a (preferences :: interests) embed
  match rel with
  | none => ((a1, n1), none)
  | some relevant =>
      match summarize_knowledge relevant with
      | none => ((a1, n1), none)
      | some _digest =>
          let (out, a2) := present_itinerary a1 llmResponse budget travel_dates
          ((a2, n1), out)

/-- The inline NYC knowledge base `nyc_knowledge` (one category,
three titled attractions, in source order). -/
def nyc_knowledge : KnowledgeBase :=
  [("attractions",
    [("Empire State Building",
      [("description", .str "Iconic skyscraper with observation decks offering stunning views of the city."),
       ("address", .str "350 Fifth Avenue, Manhattan"),
       ("website", .str "www.esbnyc.com"),
       ("tips", .list
         ["Purchase tickets online in advance to avoid long lines.",
          "Visit during the day and at night for different perspectives."])]),
     ("Central Park",
      [("description", .str "A vast green oasis in the heart of Manhattan, perfect for picnics, walks, bike rides, and boating."),
       ("activities", .list
         ["visit the Central Park Zoo",
          "rent a rowboat on The Lake",
          "see a performance at the Delacorte Theater",
          "have a picnic on the Great Lawn"]),
       ("tips", .list
         ["Download a map of the park to navigate its many paths and attractions."])]),
     ("The Metropolitan Museum of Art",
      [("description", .str "One of the world\x27s largest and finest art museums."),
       ("address", .str "1000 Fifth Avenue, Manhattan"),
       ("website", .str "www.metmuseum.org"),
       ("tips", .list
         ["Allow ample time to explore the vast collection.",
          "Consider purchasing a guided tour for a more in-depth experience."])])])]

/-- `TravelPlannerDemo.setup_environment` from the demo shell: check the
`OPENAI_API_KEY` environment variable; when absent print the diagnostics and
call `sys.exit(1)` (second component `some exitCode`); otherwise report
success and continue (the dependency imports always succeed in this model,
since the modelled program has them installed). -/
def setup_environment (env : String → Option String) :
    List String × Option Nat :=
  match env "OPENAI_API_KEY" with
  | none =>
      (["🔧 正在设置运行环境...",
        "❌ 错误: 未找到OPENAI_API_KEY环境变量",
        "请设置您的OpenAI API密钥:",
        "export OPENAI_API_KEY=\x27your_api_key_here\x27"], some 1)
  | some _ =>
      (["🔧 正在设置运行环境...",
        "✅ OpenAI API密钥已配置",
        "✅ 所有依赖包已安装"], none)

/-- The startup path of the demo shell: `TravelPlannerDemo.__init__` runs
`setup_environment`; only when it does not exit does `initialize_agent`
construct the agent and load the NYC knowledge base (the first operations
that reach the network).  Result: (console output, `some exitCode` when the
process terminated early, number of embedding-endpoint calls made). -/
def demoStartup (env : String → Option String) (embed : String → Vec) :
    List String × Option Nat × Nat :=
  let (out, ex) := setup_environment env
  match ex with
  | some c => (out, some c, 0)
  | none =>
      let (a, calls) := load_knowledge (mkAgent "NYCAI" 1000 1536) nyc_knowledge embed
      let _ := a
      (out ++ ["\n🤖 正在初始化AI旅行代理...",
               "📚 正在加载纽约旅行知识库...",
               "✅ AI旅行代理初始化完成"], none, calls)

/-- A cache is consistent with the embedding endpoint: every cached vector
is the endpoint's answer for its key (which is how `load_knowledge` and
`retrieve_knowledge` populate it). -/
def CacheOK (embed : String → Vec) (c : List (String × Vec)) : Prop :=
  ∀ k v, dictFind c k = some v → v = get_embedding embed k

/-- A split piece that the accumulation loop treats as plain content: its
stripped form is neither of the two literal labels and has no
`Day\s+\d+:` prefix. -/
def plainPiece (s : String) : Prop :=
  pyStrip s ≠ "Transportation:" ∧ pyStrip s ≠ "Accommodation:"
    ∧ (dayMatchLen (pyStrip s).data).isSome = false

instance plainPieceDecidable (s : String) : Decidable (plainPiece s) := by
  unfold plainPiece
  infer_instance

/-- Everything before the first newline of a string (the header line of a
knowledge-digest block). -/
def firstLine (s : String) : String :=
  String.mk (s.data.takeWhile (fun c => c ≠ '\n'))

/-- A concrete deterministic embedding endpoint for witnesses. -/
def embedLen : String → Vec := fun s => [Int.ofNat s.length]

/-- A one-record knowledge base. -/
def kb1 : KnowledgeBase :=
  [("attractions", [("A", [("description", Val.str "a")])])]

/-- A two-record knowledge base with distinct titles. -/
def kb2 : KnowledgeBase :=
  [("attractions",
    [("A", [("description", Val.str "a")]),
     ("Long title", [("description", Val.str "b")])])]

/-- The agent obtained by loading the one-record base into a fresh agent. -/
def agent1 : Agent := (load_knowledge (mkAgent "NYCAI" 1000 1536) kb1 embedLen).1

/-- The agent obtained by loading the two-record base into a fresh agent. -/
def agent2 : Agent := (load_knowledge (mkAgent "NYCAI" 1000 1536) kb2 embedLen).1

/-- A fresh agent whose cache already holds one entry (witness object). -/
def agentC : Agent :=
  { mkAgent "C" 1000 1536 with embedding_cache := [("t", [1])] }

theorem dictFind_append_some {α : Type} {d : List (String × α)} {k : String}
    {v : α} (h : dictFind d k = some v) (d' : List (String × α)) :
    dictFind (d ++ d') k = some v := by
  induction d with
  | nil => simp [dictFind] at h
  | cons p rest ih =>
      obtain ⟨k', v'⟩ := p
      by_cases hk : k' = k
      · simpa [dictFind, hk] using h
      · rw [List.cons_append, dictFind, if_neg hk]
        rw [dictFind, if_neg hk] at h
        exact ih h

theorem dictFind_append_none {α : Type} {d : List (String × α)} {k : String}
    (h : dictFind d k = none) (d' : List (String × α)) :
    dictFind (d ++ d') k = dictFind d' k := by
  induction d with
  | nil => simp
  | cons p rest ih =>
      obtain ⟨k', v'⟩ := p
      by_cases hk : k' = k
      · rw [dictFind, if_pos hk] at h; exact absurd h (by simp)
      · rw [dictFind, if_neg hk] at h
        rw [List.cons_append, dictFind, if_neg hk]
        exact ih h

theorem loadStep_fields (embed : String → Vec) (a : Agent) (n : Nat)
    (e : String × Record) :
    ((loadStep embed (a, n) e).1.name = a.name
      ∧ (loadStep embed (a, n) e).1.cache_size = a.cache_size
      ∧ (loadStep embed (a, n) e).1.embedding_dim = a.embedding_dim
      ∧ (loadStep embed (a, n) e).1.index = a.index)
    ∧ (loadStep embed (a, n) e).1.knowledge_data = a.knowledge_data ++ [e.2]
    ∧ (loadStep embed (a, n) e).1.knowledge_embeddings.length
        = a.knowledge_embeddings.length + 1 := by
  unfold loadStep
  cases h : dictFind a.embedding_cache e.1 <;> simp [h]

theorem loadEntries_cons (embed : String → Vec) (a : Agent) (n : Nat)
    (e : String × Record) (rest : List (String × Record)) :
    loadEntries embed (a, n) (e :: rest)
      = loadEntries embed (loadStep embed (a, n) e) rest := by
  simp [loadEntries]

theorem loadEntries_fields (embed : String → Vec) (es : List (String × Record)) :
    ∀ (a : Agent) (n : Nat),
      ((loadEntries embed (a, n) es).1.name = a.name
        ∧ (loadEntries embed (a, n) es).1.cache_size = a.cache_size
        ∧ (loadEntries embed (a, n) es).1.embedding_dim = a.embedding_dim
        ∧ (loadEntries embed (a, n) es).1.index = a.index)
      ∧ (loadEntries embed (a, n) es).1.knowledge_data
          = a.knowledge_data ++ es.map Prod.snd
      ∧ (loadEntries embed (a, n) es).1.knowledge_embeddings.length
          = a.knowledge_embeddings.length + es.length := by
  induction es with
  | nil => intro a n; simp [loadEntries]
  | cons e rest ih =>
      intro a n
      have hfld := loadStep_fields embed a n e
      rcases hp : loadStep embed (a, n) e with ⟨a', n'⟩
      rw [hp] at hfld
      rw [loadEntries_cons, hp]
      obtain ⟨⟨f1, f2, f3, f4⟩, f5, f6⟩ := hfld
      obtain ⟨⟨g1, g2, g3, g4⟩, g5, g6⟩ := ih a' n'
      refine ⟨⟨?_, ?_, ?_, ?_⟩, ?_, ?_⟩
      · rw [g1, f1]
      · rw [g2, f2]
      · rw [g3, f3]
      · rw [g4, f4]
      · rw [g5, f5]; simp
      · rw [g6, f6]; simp; omega

theorem loadStep_cache_mono (embed : String → Vec) (a : Agent) (n : Nat)
    (e : String × Record) {k : String} {v : Vec}
    (h : dictFind a.embedding_cache k = some v) :
    dictFind (loadStep embed (a, n) e).1.embedding_cache k = some v := by
  unfold loadStep
  cases hc : dictFind a.embedding_cache e.1 <;> simp [hc]
  · exact dictFind_append_some h _
  · exact h

theorem loadEntries_cache_mono (embed : String → Vec)
    (es : List (String × Record)) :
    ∀ (a : Agent) (n : Nat) {k : String} {v : Vec},
      dictFind a.embedding_cache k = some v →
      dictFind (loadEntries embed (a, n) es).1.embedding_cache k = some v := by
  induction es with
  | nil => intro a n k v h; simpa [loadEntries] using h
  | cons e rest ih =>
      intro a n k v h
      have hm := loadStep_cache_mono embed a n e h
      rcases hp : loadStep embed (a, n) e with ⟨a', n'⟩
      rw [hp] at hm
      rw [loadEntries_cons, hp]
      exact ih a' n' hm

theorem loadStep_caches_title (embed : String → Vec) (a : Agent) (n : Nat)
    (e : String × Record) :
    ∃ w, dictFind (loadStep embed (a, n) e).1.embedding_cache e.1 = some w := by
  unfold loadStep
  cases hc : dictFind a.embedding_cache e.1 with
  | some w =>
      refine ⟨w, ?_⟩
      simp [hc]
  | none =>
      refine ⟨get_embedding embed e.1, ?_⟩
      simp [hc]
      rw [dictFind_append_none hc]
      simp [dictFind]

theorem loadEntries_titles_cached (embed : String → Vec)
    (es : List (String × Record)) :
    ∀ (a : Agent) (n : Nat) (e : String × Record), e ∈ es →
      ((dictFind (loadEntries embed (a, n) es).1.embedding_cache e.1).isSome
        = true) := by
  induction es with
  | nil => intro a n e h; simp at h
  | cons e0 rest ih =>
      intro a n e h
      rcases hp : loadStep embed (a, n) e0 with ⟨a', n'⟩
      rw [loadEntries_cons, hp]
      rcases List.mem_cons.mp h with h0 | hrest
      · subst h0
        obtain ⟨w, hw⟩ := loadStep_caches_title embed a n e
        rw [hp] at hw
        have := loadEntries_cache_mono embed rest a' n' hw
        simp [this]
      · exact ih a' n' e hrest

theorem loadStep_hit (embed : String → Vec) (a : Agent) (n : Nat)
    (e : String × Record) {w : Vec}
    (hc : dictFind a.embedding_cache e.1 = some w) :
    loadStep embed (a, n) e
      = ({ a with
            knowledge_embeddings := a.knowledge_embeddings ++ [w]
            knowledge_data := a.knowledge_data ++ [e.2] }, n) := by
  simp [loadStep, hc]

theorem loadStep_embeds (embed : String → Vec) (a : Agent) (n : Nat)
    (e : String × Record) (hok : CacheOK embed a.embedding_cache) :
    (loadStep embed (a, n) e).1.knowledge_embeddings
      = a.knowledge_embeddings ++ [get_embedding embed e.1]
    ∧ CacheOK embed (loadStep embed (a, n) e).1.embedding_cache := by
  unfold loadStep
  cases hc : dictFind a.embedding_cache e.1 with
  | some w =>
      simp [hc]
      refine ⟨hok e.1 w hc, hok⟩
  | none =>
      simp [hc]
      intro k v h
      cases hk : dictFind a.embedding_cache k with
      | some v' =>
          have := dictFind_append_some hk [(e.1, get_embedding embed e.1)]
          rw [this] at h
          exact Option.some.inj h ▸ hok k v' hk
      | none =>
          rw [dictFind_append_none hk] at h
          by_cases he : e.1 = k
          · rw [dictFind, if_pos he] at h
            rw [← Option.some.inj h, ← he]
          · rw [dictFind, if_neg he, dictFind] at h
            exact absurd h (by simp)

theorem loadEntries_embeds (embed : String → Vec)
    (es : List (String × Record)) :
    ∀ (a : Agent) (n : Nat), CacheOK embed a.embedding_cache →
      (loadEntries embed (a, n) es).1.knowledge_embeddings
        = a.knowledge_embeddings ++ es.map (fun e => get_embedding embed e.1)
      ∧ CacheOK embed (loadEntries embed (a, n) es).1.embedding_cache := by
  induction es with
  | nil => intro a n hok; simpa [loadEntries] using hok
  | cons e rest ih =>
      intro a n hok
      obtain ⟨h1, h2⟩ := loadStep_embeds embed a n e hok
      rcases hp : loadStep embed (a, n) e with ⟨a', n'⟩
      rw [hp] at h1 h2
      rw [loadEntries_cons, hp]
      obtain ⟨g1, g2⟩ := ih a' n' h2
      refine ⟨?_, g2⟩
      rw [g1, h1]
      simp

theorem loadEntries_hits (embed : String → Vec)
    (es : List (String × Record)) :
    ∀ (a : Agent) (n : Nat),
      (∀ e ∈ es, (dictFind a.embedding_cache e.1).isSome = true) →
      (loadEntries embed (a, n) es).2 = n
      ∧ (loadEntries embed (a, n) es).1.embedding_cache
          = a.embedding_cache := by
  induction es with
  | nil => intro a n _; simp [loadEntries]
  | cons e rest ih =>
      intro a n hall
      have hs : (dictFind a.embedding_cache e.1).isSome = true :=
        hall e (List.mem_cons_self e rest)
      obtain ⟨w, hw⟩ := Option.isSome_iff_exists.mp hs
      rw [loadEntries_cons, loadStep_hit embed a n e hw]
      have hrest : ∀ e' ∈ rest,
          (dictFind ({ a with
              knowledge_embeddings := a.knowledge_embeddings ++ [w]
              knowledge_data := a.knowledge_data ++ [e.2] } :
                Agent).embedding_cache e'.1).isSome = true := by
        intro e' he'
        exact hall e' (List.mem_cons_of_mem e he')
      exact ih _ n hrest

theorem foldl_cats_eq (embed : String → Vec) (kb : KnowledgeBase) :
    ∀ acc : Agent × Nat,
      kb.foldl (fun acc cat => loadEntries embed acc cat.2) acc
        = loadEntries embed acc (kbEntries kb) := by
  induction kb with
  | nil => intro acc; simp [kbEntries, loadEntries]
  | cons c kb ih =>
      intro acc
      rw [List.foldl_cons]
      rw [ih (loadEntries embed acc c.2)]
      show _ = loadEntries embed acc (kbEntries (c :: kb))
      have : kbEntries (c :: kb) = c.2 ++ kbEntries kb := by
        simp [kbEntries]
      rw [this]
      unfold loadEntries
      rw [List.foldl_append]

theorem load_knowledge_eq (a : Agent) (kb : KnowledgeBase)
    (embed : String → Vec) :
    load_knowledge a kb embed
      = (({ (loadEntries embed (a, 0) (kbEntries kb)).1 with
            index := (loadEntries embed (a, 0) (kbEntries kb)).1.index
              ++ (loadEntries embed (a, 0) (kbEntries kb)).1.knowledge_embeddings }),
         (loadEntries embed (a, 0) (kbEntries kb)).2) := by
  unfold load_knowledge
  rw [foldl_cats_eq embed kb (a, 0)]

theorem fresh_cacheok (name : String) (cs dim : Nat) (embed : String → Vec) :
    CacheOK embed (mkAgent name cs dim).embedding_cache := by
  intro k v h
  simp [mkAgent, dictFind] at h

/-- C1: after one `load_knowledge` on a fresh agent over a base with `N`
titled records (no duplicate titles), the faiss index holds exactly `N`
vectors, and for every position `i` the record at position `i` of
`knowledge_data` is the body of the entry whose title's embedding sits at
position `i` of the index. -/
theorem claim_c1_load_alignment (name : String) (cs dim : Nat)
    (kb : KnowledgeBase) (embed : String → Vec)
    (hnd : (kbTitles kb).Nodup) :
    (load_knowledge (mkAgent name cs dim) kb embed).1.index.length
        = (kbEntries kb).length
    ∧ ∀ i, i < (kbEntries kb).length →
        (load_knowledge (mkAgent name cs dim) kb embed).1.knowledge_data.get? i
            = ((kbEntries kb).get? i).map Prod.snd
        ∧ (load_knowledge (mkAgent name cs dim) kb embed).1.index.get? i
            = ((kbEntries kb).get? i).map (fun e => get_embedding embed e.1) := by
  rw [load_knowledge_eq]
  obtain ⟨hemb, _⟩ :=
    loadEntries_embeds embed (kbEntries kb) (mkAgent name cs dim) 0
      (fresh_cacheok name cs dim embed)
  obtain ⟨⟨_, _, _, hidx⟩, hdata, _⟩ :=
    loadEntries_fields embed (kbEntries kb) (mkAgent name cs dim) 0
  rw [hemb, hidx, hdata]
  simp [mkAgent]

theorem claim_c1_witness :
    (load_knowledge (mkAgent "NYCAI" 1000 1536) kb2 embedLen).1.index.length
        = (kbEntries kb2).length
    ∧ ∀ i, i < (kbEntries kb2).length →
        (load_knowledge (mkAgent "NYCAI" 1000 1536) kb2
            embedLen).1.knowledge_data.get? i
            = ((kbEntries kb2).get? i).map Prod.snd
        ∧ (load_knowledge (mkAgent "NYCAI" 1000 1536) kb2
            embedLen).1.index.get? i
            = ((kbEntries kb2).get? i).map (fun e => get_embedding embedLen e.1) :=
  claim_c1_load_alignment "NYCAI" 1000 1536 kb2 embedLen (by decide)

/-- C3: a second `load_knowledge` with the same base on the same agent makes
no embedding-endpoint call — every title hits the cache populated by the
first load, so the cumulative call count does not change. -/
theorem claim_c3_second_load_cached (a : Agent) (kb : KnowledgeBase)
    (embed : String → Vec) :
    (load_knowledge (load_knowledge a kb embed).1 kb embed).2 = 0 := by
  rw [load_knowledge_eq a kb embed]
  set a1 := (loadEntries embed (a, 0) (kbEntries kb)).1 with ha1
  rw [load_knowledge_eq]
  have hcached : ∀ e ∈ kbEntries kb,
      (dictFind ({ a1 with
          index := a1.index ++ a1.knowledge_embeddings } :
            Agent).embedding_cache e.1).isSome = true := by
    intro e he
    exact loadEntries_titles_cached embed (kbEntries kb) a 0 e he
  exact (loadEntries_hits embed (kbEntries kb) _ 0 hcached).1

/-- C8: loading the same `N`-record base twice into a fresh agent leaves the
faiss index with `3 * N` vectors but `knowledge_data` with `2 * N` records —
the second call bulk-adds the entire accumulated embeddings list again — so
the 1:1 index/data alignment holds only after the first load. -/
theorem claim_c8_double_load (name : String) (cs dim : Nat)
    (kb : KnowledgeBase) (embed : String → Vec) :
    (load_knowledge (load_knowledge (mkAgent name cs dim) kb embed).1 kb
        embed).1.index.length = 3 * (kbEntries kb).length
    ∧ (load_knowledge (load_knowledge (mkAgent name cs dim) kb embed).1 kb
        embed).1.knowledge_data.length = 2 * (kbEntries kb).length
    ∧ (0 < (kbEntries kb).length →
        (load_knowledge (load_knowledge (mkAgent name cs dim) kb embed).1 kb
            embed).1.index.length
          ≠ (load_knowledge (load_knowledge (mkAgent name cs dim) kb
              embed).1 kb embed).1.knowledge_data.length) := by
  rw [load_knowledge_eq (mkAgent name cs dim) kb embed]
  set a1 := (loadEntries embed (mkAgent name cs dim, 0) (kbEntries kb)).1
    with ha1
  rw [load_knowledge_eq]
  set A1 : Agent := { a1 with index := a1.index ++ a1.knowledge_embeddings }
    with hA1
  set a2 := (loadEntries embed (A1, 0) (kbEntries kb)).1 with ha2
  obtain ⟨⟨_, _, _, hidx1⟩, hdata1, hlen1⟩ :=
    loadEntries_fields embed (kbEntries kb) (mkAgent name cs dim) 0
  obtain ⟨⟨_, _, _, hidx2⟩, hdata2, hlen2⟩ :=
    loadEntries_fields embed (kbEntries kb) A1 0
  rw [← ha1] at hidx1 hdata1 hlen1
  rw [← ha2] at hidx2 hdata2 hlen2
  have pIdx : A1.index = a1.index ++ a1.knowledge_embeddings := rfl
  have pEmb : A1.knowledge_embeddings = a1.knowledge_embeddings := rfl
  have pData : A1.knowledge_data = a1.knowledge_data := rfl
  have N1idx : a1.index.length = 0 := by
    rw [hidx1]; rfl
  have N1emb : a1.knowledge_embeddings.length = (kbEntries kb).length := by
    rw [hlen1]; simp [mkAgent]
  have N1data : a1.knowledge_data.length = (kbEntries kb).length := by
    rw [hdata1]; simp [mkAgent]
  have G1 : a2.index.length = (kbEntries kb).length := by
    rw [hidx2, pIdx]
    simp [N1idx, N1emb]
  have G2 : a2.knowledge_embeddings.length = 2 * (kbEntries kb).length := by
    rw [hlen2, pEmb, N1emb]
    omega
  have G3 : a2.knowledge_data.length = 2 * (kbEntries kb).length := by
    rw [hdata2, pData]
    simp [N1data]
    omega
  have pIdx2 : ({ a2 with
      index := a2.index ++ a2.knowledge_embeddings } : Agent).index
        = a2.index ++ a2.knowledge_embeddings := rfl
  have pData2 : ({ a2 with
      index := a2.index ++ a2.knowledge_embeddings } : Agent).knowledge_data
        = a2.knowledge_data := rfl
  refine ⟨?_, ?_, ?_⟩
  · rw [pIdx2]; simp [G1, G2]; omega
  · rw [pData2, G3]
  · intro hN
    rw [pIdx2, pData2, List.length_append, G1, G2, G3]
    omega

theorem claim_c8_witness :
    (load_knowledge (load_knowledge (mkAgent "NYCAI" 1000 1536) kb1
        embedLen).1 kb1 embedLen).1.index.length = 3 * (kbEntries kb1).length
    ∧ (load_knowledge (load_knowledge (mkAgent "NYCAI" 1000 1536) kb1
        embedLen).1 kb1 embedLen).1.knowledge_data.length
        = 2 * (kbEntries kb1).length
    ∧ (load_knowledge (load_knowledge (mkAgent "NYCAI" 1000 1536) kb1
        embedLen).1 kb1 embedLen).1.index.length
        ≠ (load_knowledge (load_knowledge (mkAgent "NYCAI" 1000 1536) kb1
            embedLen).1 kb1 embedLen).1.knowledge_data.length :=
  ⟨(claim_c8_double_load "NYCAI" 1000 1536 kb1 embedLen).1,
   (claim_c8_double_load "NYCAI" 1000 1536 kb1 embedLen).2.1,
   (claim_c8_double_load "NYCAI" 1000 1536 kb1 embedLen).2.2 (by decide)⟩

theorem retrieve_cache_mono (a : Agent) (q : String) (embed : String → Vec)
    {k : String} {v : Vec} (h : dictFind a.embedding_cache k = some v) :
    dictFind (retrieve_knowledge a q embed).1.1.embedding_cache k = some v := by
  unfold retrieve_knowledge
  cases hc : dictFind a.embedding_cache q <;> simp [hc]
  · exact dictFind_append_some h _
  · exact h

theorem present_itinerary_state (a : Agent) (t b : String) (d : List String) :
    (present_itinerary a t b d).2 = a := by
  unfold present_itinerary
  rcases d.get? 0 with _ | s0 <;> rcases d.get? 1 with _ | s1 <;> simp
  rcases tripNumDays s0 s1 with _ | nd <;> simp

theorem retrieveMany_cache_mono (embed : String → Vec) (qs : List String) :
    ∀ (a : Agent) {k : String} {v : Vec},
      dictFind a.embedding_cache k = some v →
      dictFind (retrieveMany a qs embed).1.1.embedding_cache k = some v := by
  induction qs with
  | nil => intro a k v h; simpa [retrieveMany] using h
  | cons q rest ih =>
      intro a k v h
      have hm := retrieve_cache_mono a q embed h
      rcases hp : retrieve_knowledge a q embed with ⟨⟨a1, n1⟩, r1⟩
      rw [hp] at hm
      simp only at hm
      unfold retrieveMany
      rw [hp]
      cases r1 with
      | none => simpa using hm
      | some l =>
          rcases hq : retrieveMany a1 rest embed with ⟨⟨a2, n2⟩, r2⟩
          have := ih a1 hm
          rw [hq] at this
          simpa [hq] using this

theorem plan_cache_mono (a : Agent) (td : List String) (b p : String)
    (ints : List String) (tm ac resp : String) (embed : String → Vec)
    {k : String} {v : Vec} (h : dictFind a.embedding_cache k = some v) :
    dictFind (plan_nyc_trip a td b p ints tm ac resp
        embed).1.1.embedding_cache k = some v := by
  have hm := retrieveMany_cache_mono embed (p :: ints) a h
  rcases hp : retrieveMany a (p :: ints) embed with ⟨⟨a1, n1⟩, rel⟩
  rw [hp] at hm
  simp only at hm
  unfold plan_nyc_trip
  rw [hp]
  dsimp only
  cases rel with
  | none => exact hm
  | some relevant =>
      dsimp only
      cases hs : summarize_knowledge relevant with
      | none => exact hm
      | some digest =>
          rcases hq : present_itinerary a1 resp b td with ⟨out, a2⟩
          have ha2 : a2 = a1 := by
            have := present_itinerary_state a1 resp b td
            rw [hq] at this
            exact this
          dsimp only
          rw [ha2]
          exact hm

theorem load_cache_mono (a : Agent) (kb : KnowledgeBase)
    (embed : String → Vec) {k : String} {v : Vec}
    (h : dictFind a.embedding_cache k = some v) :
    dictFind (load_knowledge a kb embed).1.embedding_cache k = some v := by
  rw [load_knowledge_eq]
  exact loadEntries_cache_mono embed (kbEntries kb) a 0 h

/-- C6: the embedding cache is append-only and unbounded.  None of the four
agent operations ever removes (or overwrites) a cache entry, and the
configured `cache_size` never constrains the cache: loading one title into
an agent configured with `cache_size = 0` grows the cache to 1 entry. -/
theorem claim_c6_cache_append_only_unbounded :
    (∀ (a : Agent) (kb : KnowledgeBase) (embed : String → Vec)
        (k : String) (v : Vec),
        dictFind a.embedding_cache k = some v →
        dictFind (load_knowledge a kb embed).1.embedding_cache k = some v)
    ∧ (∀ (a : Agent) (q : String) (embed : String → Vec)
        (k : String) (v : Vec),
        dictFind a.embedding_cache k = some v →
        dictFind (retrieve_knowledge a q embed).1.1.embedding_cache k
          = some v)
    ∧ (∀ (a : Agent) (td : List String) (b p : String) (ints : List String)
        (tm ac resp : String) (embed : String → Vec) (k : String) (v : Vec),
        dictFind a.embedding_cache k = some v →
        dictFind (plan_nyc_trip a td b p ints tm ac resp
            embed).1.1.embedding_cache k = some v)
    ∧ (∀ (a : Agent) (t b : String) (d : List String),
        (present_itinerary a t b d).2 = a)
    ∧ (mkAgent "N" 0 1536).cache_size
        < (load_knowledge (mkAgent "N" 0 1536) kb1
            embedLen).1.embedding_cache.length := by
  refine ⟨?_, ?_, ?_, ?_, ?_⟩
  · intro a kb embed k v h
    exact load_cache_mono a kb embed h
  · intro a q embed k v h
    exact retrieve_cache_mono a q embed h
  · intro a td b p ints tm ac resp embed k v h
    exact plan_cache_mono a td b p ints tm ac resp embed h
  · intro a t b d
    exact present_itinerary_state a t b d
  · decide

theorem claim_c6_witness :
    dictFind (load_knowledge agentC kb1 embedLen).1.embedding_cache "t"
      = some [1] :=
  claim_c6_cache_append_only_unbounded.1 agentC kb1 embedLen "t" [1]
    (by decide)

/-- C10: the `budget` argument of `present_itinerary` is never read — output
and final agent state are identical for any two budget values
(noninterference in the budget input). -/
theorem claim_c10_budget_noninterference (a : Agent) (text : String)
    (d : List String) (b1 b2 : String) :
    present_itinerary a text b1 d = present_itinerary a text b2 d := rfl

/-- C7: for the travel dates 2024-04-10 and 2024-04-15, the trip length
computed by `present_itinerary` (end minus start, in elapsed days) is 5, and
`present_itinerary` succeeds on those dates. -/
theorem claim_c7_trip_days :
    tripNumDays "2024-04-10" "2024-04-15" = some 5
    ∧ (present_itinerary (mkAgent "NYCAI" 1000 1536) "" "$10000"
        ["2024-04-10", "2024-04-15"]).1.isSome = true := by
  constructor
  · decide
  · decide

/-- C5: when the `OPENAI_API_KEY` environment variable is absent, the demo
terminates with exit status 1 (non-zero), prints the diagnostic message, and
makes zero embedding-endpoint (network) calls. -/
theorem claim_c5_missing_credential (env : String → Option String)
    (embed : String → Vec) (h : env "OPENAI_API_KEY" = none) :
    (demoStartup env embed).2.1 = some 1
    ∧ (demoStartup env embed).2.2 = 0
    ∧ "❌ 错误: 未找到OPENAI_API_KEY环境变量" ∈ (demoStartup env embed).1 := by
  unfold demoStartup setup_environment
  rw [h]
  simp

theorem claim_c5_witness :
    (demoStartup (fun _ => none) embedLen).2.1 = some 1
    ∧ (demoStartup (fun _ => none) embedLen).2.2 = 0
    ∧ "❌ 错误: 未找到OPENAI_API_KEY环境变量"
        ∈ (demoStartup (fun _ => none) embedLen).1 :=
  claim_c5_missing_credential (fun _ => none) embedLen rfl

/-- C2 counterexample: with a single loaded record (`N = 1`),
`retrieve_knowledge` returns 5 records, not `min 5 N = 1` — faiss pads the
missing neighbours with label `-1`, which Python list indexing resolves to
the last record. -/
theorem claim_c2_counterexample :
    (retrieve_knowledge agent1 "museums" embedLen).2.map List.length = some 5
    ∧ agent1.knowledge_data.length = 1
    ∧ ¬ (5 ≤ min 5 1) := by
  refine ⟨by decide, by decide, by decide⟩

theorem pyGetAll_spec (l : List Record) :
    ∀ (idxs : List Int), (∀ i ∈ idxs, (pyGet l i).isSome = true) →
      ∃ ys, pyGetAll l idxs = some ys ∧ ys.length = idxs.length
        ∧ ∀ j : Nat, ys.get? j = (idxs.get? j).bind (pyGet l) := by
  intro idxs
  induction idxs with
  | nil =>
      intro _
      exact ⟨[], by simp [pyGetAll], by simp, by simp⟩
  | cons i rest ih =>
      intro hall
      obtain ⟨r, hr⟩ := Option.isSome_iff_exists.mp
        (hall i (List.mem_cons_self i rest))
      obtain ⟨ys, h1, h2, h3⟩ :=
        ih (fun z hz => hall z (List.mem_cons_of_mem i hz))
      refine ⟨r :: ys, ?_, by simp [h2], ?_⟩
      · simp [pyGetAll, hr, h1]
      · intro j
        cases j with
        | zero => simp [hr]
        | succ j => simpa using h3 j

theorem retrieve_snd (a : Agent) (q : String) (embed : String → Vec) :
    (retrieve_knowledge a q embed).2
      = pyGetAll a.knowledge_data
          (faissSearchLabels a.index (queryEmbedding a q embed) 5) := by
  unfold retrieve_knowledge
  cases hc : dictFind a.embedding_cache q <;> simp [hc]

theorem searchPairs_length (index : List Vec) (q : Vec) :
    (searchPairs index q).length = index.length := by
  unfold searchPairs
  rw [List.length_insertionSort]
  simp

theorem searchPairs_pos_lt (index : List Vec) (q : Vec) :
    ∀ p ∈ searchPairs index q, p.2 < index.length := by
  intro p hp
  unfold searchPairs at hp
  rw [List.mem_insertionSort] at hp
  obtain ⟨x, hx, hpx⟩ := List.mem_map.mp hp
  have := List.mem_enum_iff_getElem?.mp hx
  have hlt : x.1 < index.length := by
    rcases Nat.lt_or_ge x.1 index.length with h | h
    · exact h
    · rw [List.getElem?_eq_none h] at this
      simp at this
  rw [← hpx]
  exact hlt

/-- C2 amended: `retrieve_knowledge` does not return at most `min 5 N`
records.  Whenever at least one record is loaded (index and data aligned) it
returns exactly 5 records: for `j < min 5 N`, position `j` of the result is
the record at index position `j` of the distance-sorted neighbour list —
whose distances are non-decreasing — so the first `min 5 N` results are the
nearest records in non-decreasing squared-L2 order; and every position
`j ≥ N` holds the LAST record, because faiss pads missing neighbours with
label `-1` and Python resolves index `-1` to the final element.  With
`N = 0` the call fails (uncaught `IndexError`), modelled as `none`. -/
theorem claim_c2_amended :
    (∀ (a : Agent) (q : String) (embed : String → Vec),
      a.index.length = a.knowledge_data.length →
      1 ≤ a.knowledge_data.length →
      ∃ l, (retrieve_knowledge a q embed).2 = some l
        ∧ l.length = 5
        ∧ List.Sorted (fun x y => x ≤ y)
            (((searchPairs a.index (queryEmbedding a q embed)).take 5).map
              Prod.fst)
        ∧ (∀ j, j < min 5 a.knowledge_data.length →
            l.get? j
              = ((searchPairs a.index
                  (queryEmbedding a q embed)).get? j).bind
                  (fun p => a.knowledge_data.get? p.2))
        ∧ (∀ j, a.knowledge_data.length ≤ j → j < 5 →
            l.get? j
              = a.knowledge_data.get? (a.knowledge_data.length - 1)))
    ∧ (∀ (a : Agent) (q : String) (embed : String → Vec),
        a.index.length = 0 → a.knowledge_data.length = 0 →
        (retrieve_knowledge a q embed).2 = none) := by
  constructor
  · intro a q embed hlen hpos
    have hallsome : ∀ i ∈ faissSearchLabels a.index
        (queryEmbedding a q embed) 5, (pyGet a.knowledge_data i).isSome
          = true := by
      intro i hi
      unfold faissSearchLabels at hi
      rcases List.mem_append.mp hi with h | h
      · obtain ⟨p, hp, hpi⟩ := List.mem_map.mp h
        have hp' := List.mem_of_mem_take hp
        have hlt : p.2 < a.knowledge_data.length :=
          hlen ▸ searchPairs_pos_lt a.index (queryEmbedding a q embed) p hp'
        rw [← hpi]
        unfold pyGet
        rw [if_pos (Int.natCast_nonneg p.2)]
        simp [List.get?_eq_getElem?, List.getElem?_eq_getElem hlt]
      · have hi1 : i = -1 := List.eq_of_mem_replicate h
        subst hi1
        unfold pyGet
        rw [if_neg (by decide), if_pos (by simpa using hpos)]
        have : a.knowledge_data.length - 1 < a.knowledge_data.length := by
          omega
        simp [List.get?_eq_getElem?, List.getElem?_eq_getElem this]
    obtain ⟨l, hsome, hlenl, hget⟩ :=
      pyGetAll_spec a.knowledge_data
        (faissSearchLabels a.index (queryEmbedding a q embed) 5) hallsome
    have hlablen : (faissSearchLabels a.index
        (queryEmbedding a q embed) 5).length = 5 := by
      unfold faissSearchLabels
      simp [searchPairs_length]
    refine ⟨l, ?_, ?_, ?_, ?_, ?_⟩
    · rw [retrieve_snd, hsome]
    · rw [hlenl, hlablen]
    · have hsp : List.Sorted (fun x y : Int × Nat => x.1 ≤ y.1)
          (searchPairs a.index (queryEmbedding a q embed)) := by
        unfold searchPairs
        haveI : IsTotal (Int × Nat) (fun x y => x.1 ≤ y.1) :=
          ⟨fun x y => Int.le_total x.1 y.1⟩
        haveI : IsTrans (Int × Nat) (fun x y => x.1 ≤ y.1) :=
          ⟨fun x y z h1 h2 => le_trans h1 h2⟩
        exact List.sorted_insertionSort _ _
      have htake : List.Pairwise (fun x y : Int × Nat => x.1 ≤ y.1)
          ((searchPairs a.index (queryEmbedding a q embed)).take 5) :=
        hsp.sublist (List.take_sublist 5 _)
      exact htake.map Prod.fst (fun x y hxy => hxy)
    · intro j hj
      rw [hget j]
      have hps : j < (searchPairs a.index
          (queryEmbedding a q embed)).length := by
        rw [searchPairs_length, hlen]
        omega
      obtain ⟨p, hp⟩ : ∃ p, (searchPairs a.index
          (queryEmbedding a q embed))[j]? = some p :=
        ⟨_, List.getElem?_eq_getElem hps⟩
      unfold faissSearchLabels
      rw [List.get?_eq_getElem?, List.getElem?_append,
        if_pos (by simpa [searchPairs_length, hlen] using hj)]
      rw [List.getElem?_map, List.getElem?_take, if_pos (by omega), hp]
      rw [List.get?_eq_getElem?, hp]
      simp only [Option.map_some', Option.some_bind]
      unfold pyGet
      rw [if_pos (Int.natCast_nonneg p.2)]
      simp [List.get?_eq_getElem?]
    · intro j hj1 hj2
      rw [hget j]
      have hpartlen : (((searchPairs a.index
          (queryEmbedding a q embed)).take 5).map
            (fun p => (p.2 : Int))).length
          = min 5 a.knowledge_data.length := by
        simp [searchPairs_length, hlen]
      have hge : (((searchPairs a.index
          (queryEmbedding a q embed)).take 5).map
          (fun p => (p.2 : Int))).length ≤ j := by
        rw [hpartlen]; omega
      unfold faissSearchLabels
      rw [List.get?_eq_getElem?, List.getElem?_append_right hge, hpartlen]
      have hjlt : j - min 5 a.knowledge_data.length
          < 5 - min 5 a.index.length := by
        rw [hlen]; omega
      rw [List.getElem?_replicate, if_pos hjlt]
      show pyGet a.knowledge_data (-1) = _
      unfold pyGet
      rw [if_neg (by decide), if_pos (by simpa using hpos)]
      rfl
  · intro a q embed hidx hdata
    have hi : a.index = [] := List.length_eq_zero.mp hidx
    have hd : a.knowledge_data = [] := List.length_eq_zero.mp hdata
    rw [retrieve_snd, hi, hd]
    have hl : faissSearchLabels [] (queryEmbedding a q embed) 5
        = List.replicate 5 (-1) := by
      unfold faissSearchLabels searchPairs
      simp [List.insertionSort]
    rw [hl]
    decide

theorem claim_c2_amended_witness :
    (∃ l, (retrieve_knowledge agent2 "museums" embedLen).2 = some l
      ∧ l.length = 5
      ∧ List.Sorted (fun x y => x ≤ y)
          (((searchPairs agent2.index
            (queryEmbedding agent2 "museums" embedLen)).take 5).map
              Prod.fst)
      ∧ (∀ j, j < min 5 agent2.knowledge_data.length →
          l.get? j
            = ((searchPairs agent2.index
                (queryEmbedding agent2 "museums" embedLen)).get? j).bind
                (fun p => agent2.knowledge_data.get? p.2))
      ∧ (∀ j, agent2.knowledge_data.length ≤ j → j < 5 →
          l.get? j
            = agent2.knowledge_data.get?
                (agent2.knowledge_data.length - 1)))
    ∧ (retrieve_knowledge (mkAgent "E" 1000 1536) "museums" embedLen).2
        = none :=
  ⟨claim_c2_amended.1 agent2 "museums" embedLen (by decide) (by decide),
   claim_c2_amended.2 (mkAgent "E" 1000 1536) "museums" embedLen
     (by decide) (by decide)⟩

theorem parseLoop_nil (cur : Option String)
    (it : List (String × List String)) : parseLoop [] cur it = it := rfl

theorem parseLoop_skip (sec : String) (h : plainPiece sec)
    (rest : List String) (it : List (String × List String)) :
    parseLoop (sec :: rest) none it = parseLoop rest none it := by
  obtain ⟨h1, h2, h3⟩ := h
  by_cases he : pyStrip sec = ""
  · conv_lhs => rw [parseLoop]
    rw [if_pos he]
  · conv_lhs => rw [parseLoop]
    rw [if_neg he, if_neg (by rintro (hh | hh); exacts [h1 hh, h2 hh]),
      if_neg (by simp [h3])]

theorem parseLoop_plain (sec c : String) (h : plainPiece sec)
    (rest : List String) (it : List (String × List String)) :
    parseLoop (sec :: rest) (some c) it
      = parseLoop rest (some c)
          (if pyStrip sec = "" then it
           else dictAppendVal it c (pyStrip sec)) := by
  obtain ⟨h1, h2, h3⟩ := h
  by_cases he : pyStrip sec = ""
  · rw [if_pos he]
    conv_lhs => rw [parseLoop]
    rw [if_pos he]
  · rw [if_neg he]
    conv_lhs => rw [parseLoop]
    rw [if_neg he, if_neg (by rintro (hh | hh); exacts [h1 hh, h2 hh]),
      if_neg (by simp [h3])]

theorem parseLoop_labelT (rest : List String) (cur : Option String)
    (it : List (String × List String)) :
    parseLoop ("Transportation:" :: rest) cur it
      = parseLoop rest (some "Transportation:")
          (dictSet it "Transportation:" []) := by
  cases cur <;> (conv_lhs => rw [parseLoop]) <;>
    rw [show pyStrip "Transportation:" = "Transportation:" from by decide] <;>
    rw [if_neg (by decide), if_pos (Or.inl rfl)]

theorem parseLoop_labelA (rest : List String) (cur : Option String)
    (it : List (String × List String)) :
    parseLoop ("Accommodation:" :: rest) cur it
      = parseLoop rest (some "Accommodation:")
          (dictSet it "Accommodation:" []) := by
  cases cur <;> (conv_lhs => rw [parseLoop]) <;>
    rw [show pyStrip "Accommodation:" = "Accommodation:" from by decide] <;>
    rw [if_neg (by decide), if_pos (Or.inr rfl)]

theorem parseLoop_labelDay (sec : String) (hstrip : pyStrip sec = sec)
    (hT : sec ≠ "Transportation:") (hA : sec ≠ "Accommodation:")
    (hday : (dayMatchLen sec.data).isSome = true)
    (rest : List String) (cur : Option String)
    (it : List (String × List String)) :
    parseLoop (sec :: rest) cur it
      = parseLoop rest (some sec) (dictSet it sec []) := by
  have hne : sec ≠ "" := by
    intro h
    rw [h] at hday
    simp [dayMatchLen] at hday
  cases cur <;> (conv_lhs => rw [parseLoop]) <;>
    rw [hstrip, if_neg hne,
      if_neg (by rintro (hh | hh); exacts [hT hh, hA hh]),
      if_pos (by simp [hday])]

/-- C4: on itinerary text splitting into the labels `Transportation:`,
`Accommodation:`, `Day 1:`, `Day 2:` in that order (with plain text
between), `present_itinerary` parses a mapping with exactly those four keys
in order, each holding the (stripped) text between its label and the next,
while the text before the first label is discarded. -/
theorem claim_c4_present_parse (text pre t1 t2 t3 t4 : String)
    (hsplit : reSplitItinerary text
      = [pre, "Transportation:", t1, "Accommodation:", t2, "Day 1:", t3,
         "Day 2:", t4])
    (hpre : plainPiece pre) (h1 : plainPiece t1) (h2 : plainPiece t2)
    (h3 : plainPiece t3) (h4 : plainPiece t4) :
    parseItinerary text
      = [("Transportation:", if pyStrip t1 = "" then [] else [pyStrip t1]),
         ("Accommodation:", if pyStrip t2 = "" then [] else [pyStrip t2]),
         ("Day 1:", if pyStrip t3 = "" then [] else [pyStrip t3]),
         ("Day 2:", if pyStrip t4 = "" then [] else [pyStrip t4])] := by
  unfold parseItinerary
  rw [hsplit]
  rw [parseLoop_skip pre ⟨hpre.1, hpre.2.1, hpre.2.2⟩]
  rw [parseLoop_labelT]
  rw [parseLoop_plain t1 _ ⟨h1.1, h1.2.1, h1.2.2⟩]
  rw [parseLoop_labelA]
  rw [parseLoop_plain t2 _ ⟨h2.1, h2.2.1, h2.2.2⟩]
  rw [parseLoop_labelDay "Day 1:" (by decide) (by decide) (by decide)
    (by decide)]
  rw [parseLoop_plain t3 _ ⟨h3.1, h3.2.1, h3.2.2⟩]
  rw [parseLoop_labelDay "Day 2:" (by decide) (by decide) (by decide)
    (by decide)]
  rw [parseLoop_plain t4 _ ⟨h4.1, h4.2.1, h4.2.2⟩]
  rw [parseLoop_nil]
  by_cases e1 : pyStrip t1 = "" <;> by_cases e2 : pyStrip t2 = "" <;>
    by_cases e3 : pyStrip t3 = "" <;> by_cases e4 : pyStrip t4 = "" <;>
    simp [e1, e2, e3, e4, dictSet, dictAppendVal]

theorem claim_c4_witness :
    parseItinerary
        "intro Transportation: fly Accommodation: hotel Day 1: museums Day 2: park"
      = [("Transportation:",
            if pyStrip " fly " = "" then [] else [pyStrip " fly "]),
         ("Accommodation:",
            if pyStrip " hotel " = "" then [] else [pyStrip " hotel "]),
         ("Day 1:",
            if pyStrip " museums " = "" then [] else [pyStrip " museums "]),
         ("Day 2:",
            if pyStrip " park" = "" then [] else [pyStrip " park"])] :=
  claim_c4_present_parse
    "intro Transportation: fly Accommodation: hotel Day 1: museums Day 2: park"
    "intro " " fly " " hotel " " museums " " park"
    (by decide) (by decide) (by decide) (by decide) (by decide) (by decide)

theorem takeWhile_notnl (tail : List Char) :
    ∀ (attrD : List Char), (∀ c ∈ attrD, ¬ c = '\n') →
      ((attrD ++ ('*' :: '*' :: '\n' :: tail)).takeWhile
          (fun c => decide (c ≠ '\n')))
        = attrD ++ ['*', '*'] := by
  intro attrD
  induction attrD with
  | nil => intro _; simp [List.takeWhile_cons]
  | cons c l ih =>
      intro h
      have hc : ¬ c = '\n' := h c (List.mem_cons_self c l)
      simp only [List.cons_append, List.takeWhile_cons, decide_eq_true_eq]
      rw [if_pos hc, ih (fun z hz => h z (List.mem_cons_of_mem c hz))]

theorem firstLine_header (attr X : String)
    (hnl : ∀ c ∈ attr.data, ¬ c = '\n') :
    firstLine ("**" ++ attr ++ "**\n" ++ X) = "**" ++ attr ++ "**" := by
  unfold firstLine
  have hdata : ("**" ++ attr ++ "**\n" ++ X).data
      = '*' :: '*' :: (attr.data ++ ('*' :: '*' :: '\n' :: X.data)) := by
    simp [String.data_append]
  rw [hdata]
  apply String.ext
  show List.takeWhile _ _ = _
  simp only [List.takeWhile_cons, decide_eq_true_eq]
  rw [if_pos (by decide), if_pos (by decide), takeWhile_notnl X.data attr.data hnl]
  simp [String.data_append]

theorem header_ne (a b : String) (h : a ≠ b) :
    ("**" ++ a ++ "**" : String) ≠ "**" ++ b ++ "**" := by
  intro he
  apply h
  have h2 := congrArg String.data he
  simp [String.data_append] at h2
  exact String.ext h2

/-- C9: `load_knowledge` stores only record bodies (never titles) in
`knowledge_data`, and the digest block `summarize_knowledge` builds for a
record is headed by the record body's FIRST attribute key; whenever that
first key differs from the record's title, the digest header differs from
the title header. -/
theorem claim_c9_digest_headers (name : String) (cs dim : Nat)
    (kb : KnowledgeBase) (embed : String → Vec) (item : Record)
    (attr : String) (v : Val) (title : String)
    (hhead : item.head? = some (attr, v))
    (hnl : ∀ c ∈ attr.data, ¬ c = '\n')
    (hne : attr ≠ title) :
    (load_knowledge (mkAgent name cs dim) kb embed).1.knowledge_data
        = (kbEntries kb).map Prod.snd
    ∧ ∃ s, itemEntry item = some s
        ∧ firstLine s = "**" ++ attr ++ "**"
        ∧ firstLine s ≠ "**" ++ title ++ "**" := by
  constructor
  · rw [load_knowledge_eq]
    obtain ⟨⟨_, _, _, _⟩, hdata, _⟩ :=
      loadEntries_fields embed (kbEntries kb) (mkAgent name cs dim) 0
    show (loadEntries embed (mkAgent name cs dim, 0)
        (kbEntries kb)).1.knowledge_data = _
    rw [hdata]
    simp [mkAgent]
  · unfold itemEntry
    rw [hhead]
    refine ⟨_, rfl, ?_, ?_⟩
    · exact firstLine_header attr _ hnl
    · rw [firstLine_header attr _ hnl]
      exact header_ne attr title hne

theorem claim_c9_witness :
    (load_knowledge (mkAgent "NYCAI" 1000 1536) kb1
        embedLen).1.knowledge_data = (kbEntries kb1).map Prod.snd
    ∧ ∃ s, itemEntry [("description", Val.str "a")] = some s
        ∧ firstLine s = "**" ++ "description" ++ "**"
        ∧ firstLine s ≠ "**" ++ "A" ++ "**" :=
  claim_c9_digest_headers "NYCAI" 1000 1536 kb1 embedLen
    [("description", Val.str "a")] "description" (Val.str "a") "A"
    (by decide) (by decide) (by decide)
